import Mathlib

/-!
Shallow embedding of the session buffering and lifecycle engine of the
helpdesk chatbot repository (src/agent/chat_manager.py, src/agent/nodes.py,
src/agent/graph.py), together with theorems checking the natural-language
specification against it.

Conventions of the embedding:
* machine integers and timestamps are `Nat` (real time is monotone, so all
  subtractions that the code performs on timestamps are on `now ≥ earlier`);
* Python dictionaries keyed by chat id are total functions from `String`,
  with a missing key modelled as `[]` / `none`;
* the opaque store gateway (`run_query`, whose implementation is an external
  collaborator) is modelled by an explicit `StoreState` on which the SQL
  statements issued by `chat_manager.py` act, and a per-call success flag
  injects its possible failures;
* the opaque completion provider is modelled by a `ProviderResult` outcome.
-/

namespace HelpdeskChatbot

/-- One not-yet-persisted chat message, as appended by
`ChatSessionManager.add_pending_message` into `pending_messages[chat_id]`
(fields `session_id`, `role`, `content`, `tokens`, `timestamp`). -/
structure PendingMsg where
  session_id : String
  role : String
  content : String
  tokens : Nat
  timestamp : Nat
deriving Repr, DecidableEq

/-- In-memory state of `ChatSessionManager`: the `pending_messages` map and
the `last_save_time` map.  A chat id absent from the Python dict is modelled
by `[]` (resp. `none`). -/
structure BufferState where
  pending : String → List PendingMsg
  lastSave : String → Option Nat

/-- Persisted database state visible to the manager: `chats.total_tokens`
for each chat row (`none` when no row with that `chat_id` exists) and the
rows of the `messages` table in insertion order, each tagged with its
`chat_id`. -/
structure StoreState where
  chats : String → Option Nat
  messages : List (String × PendingMsg)

/-- A write statement issued against the store during a flush: the single
multi-row `INSERT INTO messages ... VALUES ...` batch, or the single
`UPDATE chats SET total_tokens = total_tokens + delta` statement. -/
inductive StoreOp where
  | insertMessages (chat_id : String) (msgs : List PendingMsg)
  | bumpTotal (chat_id : String) (delta : Nat)
deriving Repr, DecidableEq

/-- Effect of one successfully executed write statement on the store.
The `UPDATE ... WHERE chat_id = c` bumps the total of row `c` when it
exists and touches nothing when it does not. -/
def applyOp (store : StoreState) : StoreOp → StoreState
  | .insertMessages cid msgs =>
      { store with messages := store.messages ++ msgs.map (fun m => (cid, m)) }
  | .bumpTotal cid d =>
      { store with chats := fun c =>
          if c = cid then (store.chats cid).map (fun t => t + d) else store.chats c }

/-- `ChatSessionManager.check_token_limit`: reads `total_tokens` for the
chat; returns `False` iff a row was found and its total is `≥`
`max_tokens_per_chat`; in particular a query returning no rows yields
`True`. -/
def check_token_limit (store : StoreState) (max_tokens_per_chat : Nat)
    (chat_id : String) : Bool :=
  match store.chats chat_id with
  | none => true
  | some total_tokens => !(decide (max_tokens_per_chat ≤ total_tokens))

/-- `ChatSessionManager.add_pending_message`: appends one entry (with the
current timestamp `now`) to the tail of `pending_messages[chat_id]`,
creating the queue if absent. -/
def add_pending_message (buf : BufferState) (chat_id session_id role content : String)
    (tokens now : Nat) : BufferState :=
  { buf with pending := fun c =>
      if c = chat_id then
        buf.pending chat_id ++ [⟨session_id, role, content, tokens, now⟩]
      else buf.pending c }

/-- `ChatSessionManager.should_auto_save`: true when no save timestamp is
recorded for the chat, or when `now - last_save_time ≥ auto_save_interval`. -/
def should_auto_save (buf : BufferState) (auto_save_interval : Nat)
    (chat_id : String) (now : Nat) : Bool :=
  match buf.lastSave chat_id with
  | none => true
  | some t => decide (auto_save_interval ≤ now - t)

/-- Result of one call to `save_pending_messages`: the manager state and
store state afterwards, the write statements that were successfully
executed, and the returned value (`some n` = the call returned `n`; `none`
= the `run_query` exception propagated out of the call). -/
structure FlushOut where
  buf : BufferState
  store : StoreState
  ops : List StoreOp
  result : Option Nat

/-- `ChatSessionManager.save_pending_messages`.  Control flow of the
source: return `0` when the pending queue is missing or empty; return `0`
when `not force` and `should_auto_save` is false; otherwise issue the batch
`INSERT` of every buffered message, then the `UPDATE` adding the summed
token cost, and only then clear the queue and stamp `last_save_time = now`
and return the number of messages.  `insertOk` / `updateOk` say whether the
corresponding `run_query` call succeeds; a failing call raises, leaving the
in-memory maps untouched but keeping the effects of the statements already
executed. -/
def save_pending_messages (buf : BufferState) (store : StoreState)
    (auto_save_interval : Nat) (chat_id : String) (force : Bool) (now : Nat)
    (insertOk updateOk : Bool) : FlushOut :=
  let msgs := buf.pending chat_id
  if msgs.isEmpty then ⟨buf, store, [], some 0⟩
  else if !force && !(should_auto_save buf auto_save_interval chat_id now) then
    ⟨buf, store, [], some 0⟩
  else
    let total_tokens := (msgs.map (fun m => m.tokens)).sum
    if !insertOk then ⟨buf, store, [], none⟩
    else
      let store1 := applyOp store (.insertMessages chat_id msgs)
      if !updateOk then ⟨buf, store1, [.insertMessages chat_id msgs], none⟩
      else
        let store2 := applyOp store1 (.bumpTotal chat_id total_tokens)
        ⟨{ pending := fun c => if c = chat_id then [] else buf.pending c,
           lastSave := fun c => if c = chat_id then some now else buf.lastSave c },
         store2,
         [.insertMessages chat_id msgs, .bumpTotal chat_id total_tokens],
         some msgs.length⟩

/-- `ChatSessionManager.end_session`: a forced flush. -/
def end_session (buf : BufferState) (store : StoreState) (auto_save_interval : Nat)
    (chat_id : String) (now : Nat) (insertOk updateOk : Bool) : FlushOut :=
  save_pending_messages buf store auto_save_interval chat_id true now insertOk updateOk

/-- One row of the recent-chats query result in `get_or_create_chat`
(`SELECT chat_id, topic, total_tokens ... WHERE user_id = ... AND is_active
ORDER BY updated_at DESC LIMIT 5`).  `topic = none` models SQL `NULL`. -/
structure RecentChat where
  chat_id : String
  topic : Option String
  total_tokens : Nat
  updated_at : Nat
deriving Repr, DecidableEq

/-- The row inserted into `chats` when a new chat is created. -/
structure NewChatRow where
  chat_id : String
  user_id : String
  topic : Option String
  total_tokens : Nat
  is_active : Bool
deriving Repr, DecidableEq

/-- Return value of `get_or_create_chat` plus the row it inserted, if any. -/
structure ResolveOut where
  chat_id : String
  is_new : Bool
  total_tokens : Nat
  inserted : Option NewChatRow
deriving Repr, DecidableEq

/-- The reuse scan of `get_or_create_chat`: with a (truthy) topic hint,
the first row of the query result whose topic equals the hint and whose
`total_tokens` is strictly below the budget.  (A Python `None` or empty
topic is falsy and skips the scan; it is modelled as `none`.) -/
def reuseCandidate (max_tokens_per_chat : Nat) (topic : Option String)
    (existing : List RecentChat) : Option RecentChat :=
  match topic with
  | none => none
  | some t =>
      existing.find? (fun c =>
        decide (c.topic = some t) && decide (c.total_tokens < max_tokens_per_chat))

/-- `ChatSessionManager.get_or_create_chat`, given the rows returned by the
recent-active-chats query (the store orders them by `updated_at DESC`) and
the freshly generated chat id used on the create path. -/
def get_or_create_chat (max_tokens_per_chat : Nat) (user_id : String)
    (existing : List RecentChat) (topic : Option String) (freshId : String) :
    ResolveOut :=
  match reuseCandidate max_tokens_per_chat topic existing with
  | some c => ⟨c.chat_id, false, c.total_tokens, none⟩
  | none => ⟨freshId, true, 0, some ⟨freshId, user_id, topic, 0, true⟩⟩

/-- Word counter modelling Python `len(text.split())`: the number of
maximal runs of non-whitespace characters.  The Boolean argument records
whether the scan is currently inside such a run. -/
def countWords : List Char → Bool → Nat
  | [], _ => 0
  | c :: cs, inWord =>
      if c.isWhitespace then countWords cs false
      else (if inWord then 0 else 1) + countWords cs true

/-- `len(text.split())` of `generate_response`. -/
def wordCount (s : String) : Nat := countWords s.toList false

/-- The token estimator of `generate_response`:
`int(len(text.split()) * 1.33)`.  The float multiply-and-truncate is
modelled exactly as `⌊133·n/100⌋`, which is `Nat` division. -/
def estimate_tokens (s : String) : Nat := wordCount s * 133 / 100

/-- Message roles of the langchain message classes used by the pipeline
(`HumanMessage`, `AIMessage`, `SystemMessage`). -/
inductive Role where
  | user
  | assistant
  | system
deriving Repr, DecidableEq

/-- One entry of `state["messages"]`. -/
structure ChatMsg where
  role : Role
  content : String
deriving Repr, DecidableEq

/-- The `AgentState` TypedDict of src/agent/state.py (the fields the nodes
read or write). -/
structure AgentState where
  messages : List ChatMsg
  chat_id : String
  session_id : String
  user_id : String
  total_tokens : Nat
deriving Repr, DecidableEq

/-- The fixed budget notice appended by `process_input`. -/
def noticeText : String :=
  "This chat has reached its maximum length. Please start a new chat to continue."

/-- The fixed apology appended by `generate_response` on any provider
error. -/
def apologyText : String :=
  "I apologize, but I encountered an error. Please try again."

/-- The system preamble prepended on the first turn of the run. -/
def systemPreamble : String :=
  "You are a helpful AI assistant. Provide clear, accurate, and helpful responses."

/-- `process_input` (src/agent/nodes.py): when `chat_id` is truthy and
`check_token_limit` reports the budget exceeded, append the fixed notice
turn; otherwise return the state unchanged.  (The node then returns; the
graph decides what runs next.) -/
def process_input (store : StoreState) (max_tokens_per_chat : Nat)
    (st : AgentState) : AgentState :=
  if st.chat_id ≠ "" && !(check_token_limit store max_tokens_per_chat st.chat_id) then
    { st with messages := st.messages ++ [⟨Role.assistant, noticeText⟩] }
  else st

/-- Outcome of the one `llm.ainvoke` call of a run: the completion
provider either returns a reply text or raises (generation error or
timeout). -/
inductive ProviderResult where
  | success (reply : String)
  | failure
deriving Repr, DecidableEq

/-- Output of `generate_response`: the updated agent state and buffer,
plus the transcript that was passed to `llm.ainvoke`. -/
structure GenOut where
  state : AgentState
  buf : BufferState
  transcript : List ChatMsg

/-- The scan of `generate_response` locating the latest `HumanMessage`
content (empty string when none exists). -/
def lastUserContent (msgs : List ChatMsg) : String :=
  match msgs.reverse.find? (fun m => decide (m.role = Role.user)) with
  | some m => m.content
  | none => ""

/-- `generate_response` (src/agent/nodes.py): prepend the system preamble
when the incoming message list has length 1, invoke the provider; on
success append the reply, add the estimated user and assistant token costs
to the running total, and buffer the user turn then the assistant turn; on
failure append the fixed apology and buffer nothing (the `except` branch
only appends the apology message). -/
def generate_response (st : AgentState) (buf : BufferState)
    (provider : ProviderResult) (now : Nat) : GenOut :=
  let full_messages :=
    if st.messages.length = 1 then ⟨Role.system, systemPreamble⟩ :: st.messages
    else st.messages
  match provider with
  | .success reply =>
      let user_msg_content := lastUserContent st.messages
      let estimated_user_tokens := estimate_tokens user_msg_content
      let estimated_ai_tokens := estimate_tokens reply
      let st1 := { st with
        messages := st.messages ++ [⟨Role.assistant, reply⟩],
        total_tokens := st.total_tokens + (estimated_user_tokens + estimated_ai_tokens) }
      let buf1 := add_pending_message buf st.chat_id st.session_id "user"
        user_msg_content estimated_user_tokens now
      let buf2 := add_pending_message buf1 st.chat_id st.session_id "assistant"
        reply estimated_ai_tokens now
      ⟨st1, buf2, full_messages⟩
  | .failure =>
      ⟨{ st with messages := st.messages ++ [⟨Role.assistant, apologyText⟩] },
       buf, full_messages⟩

/-- Boolean prefix test on character lists. -/
def charsPrefix : List Char → List Char → Bool
  | [], _ => true
  | _ :: _, [] => false
  | p :: ps, c :: cs => p == c && charsPrefix ps cs

/-- Boolean substring test on character lists (first argument is the
pattern). -/
def charsContain : List Char → List Char → Bool
  | pat, [] => charsPrefix pat []
  | pat, c :: cs => charsPrefix pat (c :: cs) || charsContain pat cs

/-- Python `pat in s` on strings. -/
def containsSub (s pat : String) : Bool := charsContain pat.toList s.toList

/-- `should_continue` (src/agent/nodes.py): `"end"` iff the last message
exists, is an `AIMessage`, and its content contains the substring
`"reached its maximum length"`; otherwise `"continue"`. -/
def should_continue (st : AgentState) : String :=
  match st.messages.getLast? with
  | some m =>
      if decide (m.role = Role.assistant) &&
          containsSub m.content "reached its maximum length" then
        "end"
      else "continue"
  | none => "continue"

/-- Result of one full run of the compiled graph. -/
structure RunOut where
  state : AgentState
  buf : BufferState
  store : StoreState
  flushOps : List StoreOp
  flushResult : Option Nat
  transcriptSent : Option (List ChatMsg)
  verdict : String

/-- One run of the graph of `create_agent_graph` (src/agent/graph.py).
The graph wires `process_input → generate_response → save_messages`
with unconditional edges, then evaluates `should_continue` (whose two
labels both map to `END`).  `save_messages` catches any exception from
`save_pending_messages`, so the run always completes.
`transcriptSent` is `some t` exactly when the provider was invoked on
transcript `t` — which, per the graph's edges, happens on every run. -/
def run_turn (st0 : AgentState) (buf0 : BufferState) (store0 : StoreState)
    (max_tokens_per_chat auto_save_interval now : Nat)
    (provider : ProviderResult) (insertOk updateOk : Bool) : RunOut :=
  let st1 := process_input store0 max_tokens_per_chat st0
  let g := generate_response st1 buf0 provider now
  let fo :=
    if g.state.chat_id ≠ "" then
      save_pending_messages g.buf store0 auto_save_interval g.state.chat_id
        false now insertOk updateOk
    else ⟨g.buf, store0, [], some 0⟩
  ⟨g.state, fo.buf, fo.store, fo.ops, fo.result, some g.transcript,
   should_continue g.state⟩

/-! ### Helper lemmas about the flush branches -/

theorem save_eq_noop_of_empty (buf : BufferState) (store : StoreState)
    (i : Nat) (cid : String) (force : Bool) (now : Nat) (a b : Bool)
    (h : buf.pending cid = []) :
    save_pending_messages buf store i cid force now a b = ⟨buf, store, [], some 0⟩ := by
  simp [save_pending_messages, h]

theorem save_eq_noop_of_not_should (buf : BufferState) (store : StoreState)
    (i : Nat) (cid : String) (now : Nat) (a b : Bool)
    (h : should_auto_save buf i cid now = false) :
    save_pending_messages buf store i cid false now a b = ⟨buf, store, [], some 0⟩ := by
  by_cases he : (buf.pending cid).isEmpty <;>
    simp [save_pending_messages, he, h]

theorem save_eq_commit (buf : BufferState) (store : StoreState)
    (i : Nat) (cid : String) (force : Bool) (now : Nat)
    (hne : buf.pending cid ≠ [])
    (hgo : force = true ∨ should_auto_save buf i cid now = true) :
    save_pending_messages buf store i cid force now true true =
      ⟨⟨fun c => if c = cid then [] else buf.pending c,
        fun c => if c = cid then some now else buf.lastSave c⟩,
       applyOp (applyOp store (.insertMessages cid (buf.pending cid)))
         (.bumpTotal cid ((buf.pending cid).map (fun m => m.tokens)).sum),
       [.insertMessages cid (buf.pending cid),
        .bumpTotal cid ((buf.pending cid).map (fun m => m.tokens)).sum],
       some (buf.pending cid).length⟩ := by
  have he : (buf.pending cid).isEmpty = false := by
    simpa [List.isEmpty_iff] using hne
  rcases hgo with h | h <;> simp [save_pending_messages, he, h]

theorem save_eq_insert_fail (buf : BufferState) (store : StoreState)
    (i : Nat) (cid : String) (force : Bool) (now : Nat) (b : Bool)
    (hne : buf.pending cid ≠ [])
    (hgo : force = true ∨ should_auto_save buf i cid now = true) :
    save_pending_messages buf store i cid force now false b =
      ⟨buf, store, [], none⟩ := by
  have he : (buf.pending cid).isEmpty = false := by
    simpa [List.isEmpty_iff] using hne
  rcases hgo with h | h <;> simp [save_pending_messages, he, h]

theorem save_eq_update_fail (buf : BufferState) (store : StoreState)
    (i : Nat) (cid : String) (force : Bool) (now : Nat)
    (hne : buf.pending cid ≠ [])
    (hgo : force = true ∨ should_auto_save buf i cid now = true) :
    save_pending_messages buf store i cid force now true false =
      ⟨buf, applyOp store (.insertMessages cid (buf.pending cid)),
       [.insertMessages cid (buf.pending cid)], none⟩ := by
  have he : (buf.pending cid).isEmpty = false := by
    simpa [List.isEmpty_iff] using hne
  rcases hgo with h | h <;> simp [save_pending_messages, he, h]

/-- Exhaustive case analysis on one `save_pending_messages` call. -/
theorem save_cases (buf : BufferState) (store : StoreState)
    (i : Nat) (cid : String) (force : Bool) (now : Nat) (a b : Bool) :
    (buf.pending cid = [] ∧
      save_pending_messages buf store i cid force now a b = ⟨buf, store, [], some 0⟩) ∨
    (buf.pending cid ≠ [] ∧ force = false ∧ should_auto_save buf i cid now = false ∧
      save_pending_messages buf store i cid force now a b = ⟨buf, store, [], some 0⟩) ∨
    (buf.pending cid ≠ [] ∧ (force = true ∨ should_auto_save buf i cid now = true) ∧
      a = false ∧
      save_pending_messages buf store i cid force now a b = ⟨buf, store, [], none⟩) ∨
    (buf.pending cid ≠ [] ∧ (force = true ∨ should_auto_save buf i cid now = true) ∧
      a = true ∧ b = false ∧
      save_pending_messages buf store i cid force now a b =
        ⟨buf, applyOp store (.insertMessages cid (buf.pending cid)),
         [.insertMessages cid (buf.pending cid)], none⟩) ∨
    (buf.pending cid ≠ [] ∧ (force = true ∨ should_auto_save buf i cid now = true) ∧
      a = true ∧ b = true ∧
      save_pending_messages buf store i cid force now a b =
        ⟨⟨fun c => if c = cid then [] else buf.pending c,
          fun c => if c = cid then some now else buf.lastSave c⟩,
         applyOp (applyOp store (.insertMessages cid (buf.pending cid)))
           (.bumpTotal cid ((buf.pending cid).map (fun m => m.tokens)).sum),
         [.insertMessages cid (buf.pending cid),
          .bumpTotal cid ((buf.pending cid).map (fun m => m.tokens)).sum],
         some (buf.pending cid).length⟩) := by
  by_cases hne : buf.pending cid = []
  · exact Or.inl ⟨hne, save_eq_noop_of_empty buf store i cid force now a b hne⟩
  · by_cases hgo : force = true ∨ should_auto_save buf i cid now = true
    · cases a with
      | false =>
          exact Or.inr (Or.inr (Or.inl
            ⟨hne, hgo, rfl, save_eq_insert_fail buf store i cid force now b hne hgo⟩))
      | true =>
          cases b with
          | false =>
              exact Or.inr (Or.inr (Or.inr (Or.inl
                ⟨hne, hgo, rfl, rfl, save_eq_update_fail buf store i cid force now hne hgo⟩)))
          | true =>
              exact Or.inr (Or.inr (Or.inr (Or.inr
                ⟨hne, hgo, rfl, rfl, save_eq_commit buf store i cid force now hne hgo⟩)))
    · push_neg at hgo
      obtain ⟨hf, hs⟩ := hgo
      have hf0 : force = false := by
        cases force with
        | false => rfl
        | true => exact absurd rfl hf
      have hs0 : should_auto_save buf i cid now = false := by
        cases hss : should_auto_save buf i cid now with
        | false => rfl
        | true => exact absurd hss hs
      subst hf0
      exact Or.inr (Or.inl
        ⟨hne, rfl, hs0, save_eq_noop_of_not_should buf store i cid now a b hs0⟩)

theorem process_input_chat_id (store : StoreState) (maxT : Nat) (st : AgentState) :
    (process_input store maxT st).chat_id = st.chat_id := by
  unfold process_input
  split <;> rfl

theorem floor_mul_133_div_100 (n : Nat) :
    n * 133 / 100 = Nat.floor ((n : ℚ) * (133 / 100)) := by
  have h : ((n : ℚ) * (133 / 100)) = ((n * 133 : ℕ) : ℚ) / ((100 : ℕ) : ℚ) := by
    push_cast
    ring
  rw [h, Nat.floor_div_nat, Nat.floor_natCast]

/-! ### Claim theorems -/

/-- C9: when the token-total query returns no row for the chat id,
`check_token_limit` reports the chat as within budget, so an unknown or
never-persisted conversation always passes the budget gate. -/
theorem unknown_chat_passes_budget_gate (store : StoreState)
    (max_tokens_per_chat : Nat) (chat_id : String)
    (h : store.chats chat_id = none) :
    check_token_limit store max_tokens_per_chat chat_id = true := by
  unfold check_token_limit
  rw [h]

theorem unknown_chat_passes_budget_gate_witness :
    ((⟨fun _ => none, []⟩ : StoreState).chats "ghost" = none) ∧
    check_token_limit ⟨fun _ => none, []⟩ 0 "ghost" = true :=
  ⟨rfl, unknown_chat_passes_budget_gate ⟨fun _ => none, []⟩ 0 "ghost" rfl⟩

/-- C6: the cost estimator is a pure function of the text equal to the
whitespace-delimited word count multiplied by 1.33 rounded down;
`estimate("hi") = 1`, `estimate("hello there") = 2`, and the buffered cost
of that turn pair is 3. -/
theorem estimator_word_count_times_133 :
    (∀ s : String, estimate_tokens s = Nat.floor ((wordCount s : ℚ) * (133 / 100))) ∧
    estimate_tokens "hi" = 1 ∧
    estimate_tokens "hello there" = 2 ∧
    estimate_tokens "hi" + estimate_tokens "hello there" = 3 :=
  ⟨fun s => floor_mul_133_div_100 (wordCount s), by decide, by decide, by decide⟩

/-- C8 counterexample: the verdict "end" is not detected by exact content
match against the notice turn — an assistant reply that merely contains
the phrase "reached its maximum length", and differs from the fixed notice
text, still yields the verdict "end". -/
theorem verdict_end_on_non_notice_reply :
    should_continue
        ⟨[⟨Role.assistant, "The essay reached its maximum length."⟩],
         "c1", "s1", "u1", 0⟩ = "end" ∧
    "The essay reached its maximum length." ≠ noticeText := by
  constructor
  · decide
  · decide

/-- C8 (amended): for every final pipeline state, the continuation verdict
is "end" iff the last message exists, is an assistant message, and its
content contains the substring "reached its maximum length" (substring
containment, not exact content match); in every other case the verdict is
"continue". -/
theorem verdict_end_iff_last_assistant_contains_phrase (st : AgentState) :
    (should_continue st = "end" ↔
      ∃ m, st.messages.getLast? = some m ∧ m.role = Role.assistant ∧
        containsSub m.content "reached its maximum length" = true) ∧
    (should_continue st = "end" ∨ should_continue st = "continue") := by
  constructor
  · constructor
    · intro h
      cases hl : st.messages.getLast? with
      | none => simp [should_continue, hl] at h
      | some m =>
          by_cases hc : (decide (m.role = Role.assistant) &&
              containsSub m.content "reached its maximum length") = true
          · have h1 := (Bool.and_eq_true _ _).mp hc
            exact ⟨m, rfl, of_decide_eq_true h1.1, h1.2⟩
          · exfalso
            have hcont : should_continue st = "continue" := by
              simp only [should_continue, hl, hc, if_false, Bool.false_eq_true]
            rw [hcont] at h
            exact absurd h (by decide)
    · rintro ⟨m, hm, hrole, hsub⟩
      have hc : (decide (m.role = Role.assistant) &&
          containsSub m.content "reached its maximum length") = true := by
        rw [Bool.and_eq_true]
        exact ⟨decide_eq_true hrole, hsub⟩
      simp only [should_continue, hm, hc, if_true]
  · cases hl : st.messages.getLast? with
    | none =>
        right
        simp [should_continue, hl]
    | some m =>
        by_cases hc : (decide (m.role = Role.assistant) &&
            containsSub m.content "reached its maximum length") = true
        · left
          simp only [should_continue, hl, hc, if_true]
        · right
          simp only [should_continue, hl, hc, if_false, Bool.false_eq_true]

theorem verdict_end_iff_last_assistant_contains_phrase_witness :
    should_continue ⟨[⟨Role.user, "hi"⟩, ⟨Role.assistant, noticeText⟩],
      "c1", "s1", "u1", 0⟩ = "end" :=
  ((verdict_end_iff_last_assistant_contains_phrase
      ⟨[⟨Role.user, "hi"⟩, ⟨Role.assistant, noticeText⟩], "c1", "s1", "u1", 0⟩).1).mpr
    ⟨⟨Role.assistant, noticeText⟩, by decide, rfl, by decide⟩

/-- C1: evaluation of the pipeline at a conversation whose stored token
total equals the budget.  `process_input` does append the fixed notice
turn, but the graph's unconditional `process_input → generate_response`
edge still invokes the Completion Provider (`transcriptSent` is `some`),
the provider's reply lands after the notice, and `should_continue`
therefore yields "continue", not "end": the claimed short-circuit to a
terminal Blocked state does not happen. -/
theorem over_budget_run_still_invokes_provider :
    (run_turn ⟨[⟨Role.user, "Tell me more"⟩], "c1", "s1", "u1", 80000⟩
        ⟨fun _ => [], fun _ => none⟩
        ⟨fun c => if c = "c1" then some 80000 else none, []⟩
        80000 3 0 (.success "Sure, here is more detail.") true true).transcriptSent.isSome
      = true ∧
    (run_turn ⟨[⟨Role.user, "Tell me more"⟩], "c1", "s1", "u1", 80000⟩
        ⟨fun _ => [], fun _ => none⟩
        ⟨fun c => if c = "c1" then some 80000 else none, []⟩
        80000 3 0 (.success "Sure, here is more detail.") true true).verdict
      = "continue" ∧
    (run_turn ⟨[⟨Role.user, "Tell me more"⟩], "c1", "s1", "u1", 80000⟩
        ⟨fun _ => [], fun _ => none⟩
        ⟨fun c => if c = "c1" then some 80000 else none, []⟩
        80000 3 0 (.success "Sure, here is more detail.") true true).state.messages
      = [⟨Role.user, "Tell me more"⟩, ⟨Role.assistant, noticeText⟩,
         ⟨Role.assistant, "Sure, here is more detail."⟩] := by
  refine ⟨rfl, by decide, by decide⟩

/-- C3: a forced flush of a non-empty buffer whose store calls succeed
executes exactly the single batch insert of all buffered turns together
with the single additive token-total update, increases the stored total by
exactly the sum of the buffered costs, returns the number of buffered
turns, and empties the buffer — for every auto-save timer state. -/
theorem forced_flush_drains_and_accounts (buf : BufferState) (store : StoreState)
    (i : Nat) (cid : String) (now t : Nat)
    (hne : buf.pending cid ≠ []) (ht : store.chats cid = some t) :
    (save_pending_messages buf store i cid true now true true).ops =
      [.insertMessages cid (buf.pending cid),
       .bumpTotal cid ((buf.pending cid).map (fun m => m.tokens)).sum] ∧
    (save_pending_messages buf store i cid true now true true).result =
      some (buf.pending cid).length ∧
    (save_pending_messages buf store i cid true now true true).buf.pending cid = [] ∧
    (save_pending_messages buf store i cid true now true true).buf.lastSave cid = some now ∧
    (save_pending_messages buf store i cid true now true true).store.chats cid =
      some (t + ((buf.pending cid).map (fun m => m.tokens)).sum) ∧
    (save_pending_messages buf store i cid true now true true).store.messages =
      store.messages ++ (buf.pending cid).map (fun m => (cid, m)) := by
  have hc := save_eq_commit buf store i cid true now hne (Or.inl rfl)
  rw [hc]
  refine ⟨rfl, rfl, by simp, by simp, ?_, rfl⟩
  simp [applyOp, ht]

theorem forced_flush_drains_and_accounts_witness :
    (save_pending_messages
        ⟨fun c => if c = "c" then [⟨"s1", "user", "hi", 1, 0⟩] else [], fun _ => none⟩
        ⟨fun c => if c = "c" then some 10 else none, []⟩
        3 "c" true 5 true true).result = some 1 ∧
    (save_pending_messages
        ⟨fun c => if c = "c" then [⟨"s1", "user", "hi", 1, 0⟩] else [], fun _ => none⟩
        ⟨fun c => if c = "c" then some 10 else none, []⟩
        3 "c" true 5 true true).store.chats "c" = some 11 := by
  have h := forced_flush_drains_and_accounts
    ⟨fun c => if c = "c" then [⟨"s1", "user", "hi", 1, 0⟩] else [], fun _ => none⟩
    ⟨fun c => if c = "c" then some 10 else none, []⟩
    3 "c" 5 10 (by decide) (by simp)
  exact ⟨by simpa using h.2.1, by simpa using h.2.2.2.2.1⟩

/-- C4: a non-forced flush is a no-op (returns 0, executes no store write,
changes nothing) whenever the buffer is empty or `should_auto_save` is
false; `should_auto_save` is true iff no prior save timestamp exists or
`now - last_save_time ≥ auto_save_interval`; and two immediately
successive non-forced flushes (same `now`, no intervening append) write at
most once: the second call executes no store write and returns 0. -/
theorem auto_flush_noop_and_idempotent (buf : BufferState) (store : StoreState)
    (i : Nat) (cid : String) (now : Nat) (a b : Bool) :
    (buf.pending cid = [] →
      save_pending_messages buf store i cid false now a b = ⟨buf, store, [], some 0⟩) ∧
    (should_auto_save buf i cid now = false →
      save_pending_messages buf store i cid false now a b = ⟨buf, store, [], some 0⟩) ∧
    (buf.lastSave cid = none → should_auto_save buf i cid now = true) ∧
    (∀ t, buf.lastSave cid = some t →
      (should_auto_save buf i cid now = true ↔ i ≤ now - t)) ∧
    ((save_pending_messages
        (save_pending_messages buf store i cid false now true true).buf
        (save_pending_messages buf store i cid false now true true).store
        i cid false now true true).result = some 0 ∧
     (save_pending_messages
        (save_pending_messages buf store i cid false now true true).buf
        (save_pending_messages buf store i cid false now true true).store
        i cid false now true true).ops = []) := by
  refine ⟨fun h => save_eq_noop_of_empty buf store i cid false now a b h,
    fun h => save_eq_noop_of_not_should buf store i cid now a b h, ?_, ?_, ?_⟩
  · intro h
    unfold should_auto_save
    rw [h]
  · intro t h
    unfold should_auto_save
    rw [h]
    simp
  · rcases save_cases buf store i cid false now true true with
      ⟨_, heq⟩ | ⟨_, _, _, heq⟩ | ⟨_, _, ha, _⟩ | ⟨_, _, _, hb, _⟩ | ⟨_, _, _, _, heq⟩
    · simp [heq]
    · simp [heq]
    · exact absurd ha (by decide)
    · exact absurd hb (by decide)
    · rw [heq]
      rw [save_eq_noop_of_empty _ _ _ _ _ _ _ _ (by simp)]
      exact ⟨rfl, rfl⟩

theorem auto_flush_noop_and_idempotent_witness :
    save_pending_messages
        ⟨fun c => if c = "c" then [⟨"s1", "user", "hi", 1, 0⟩] else [],
         fun c => if c = "c" then some 0 else none⟩
        ⟨fun c => if c = "c" then some 10 else none, []⟩
        3 "c" false 1 true true =
      ⟨⟨fun c => if c = "c" then [⟨"s1", "user", "hi", 1, 0⟩] else [],
        fun c => if c = "c" then some 0 else none⟩,
       ⟨fun c => if c = "c" then some 10 else none, []⟩, [], some 0⟩ :=
  (auto_flush_noop_and_idempotent
      ⟨fun c => if c = "c" then [⟨"s1", "user", "hi", 1, 0⟩] else [],
       fun c => if c = "c" then some 0 else none⟩
      ⟨fun c => if c = "c" then some 10 else none, []⟩
      3 "c" 1 true true).2.1 (by decide)

/-- C10: buffer operations are framed per conversation — an append adds
exactly one entry at the tail of the target conversation's pending queue,
leaves every other conversation's queue untouched and every last-save
timestamp untouched, and a flush leaves every other conversation's queue
and timestamp untouched. -/
theorem buffer_ops_per_conversation_frame (buf : BufferState)
    (cid sid role content : String) (tokens now : Nat) :
    (add_pending_message buf cid sid role content tokens now).pending cid =
      buf.pending cid ++ [⟨sid, role, content, tokens, now⟩] ∧
    (∀ c, c ≠ cid →
      (add_pending_message buf cid sid role content tokens now).pending c =
        buf.pending c) ∧
    (∀ c, (add_pending_message buf cid sid role content tokens now).lastSave c =
      buf.lastSave c) ∧
    (∀ (store : StoreState) (i : Nat) (force : Bool) (now2 : Nat) (a b : Bool)
        (c : String), c ≠ cid →
      (save_pending_messages buf store i cid force now2 a b).buf.pending c =
        buf.pending c ∧
      (save_pending_messages buf store i cid force now2 a b).buf.lastSave c =
        buf.lastSave c) := by
  refine ⟨by simp [add_pending_message],
    fun c hc => by simp [add_pending_message, hc],
    fun c => rfl, ?_⟩
  intro store i force now2 a b c hc
  rcases save_cases buf store i cid force now2 a b with
    ⟨_, heq⟩ | ⟨_, _, _, heq⟩ | ⟨_, _, _, heq⟩ | ⟨_, _, _, _, heq⟩ | ⟨_, _, _, _, heq⟩ <;>
    rw [heq] <;> simp [hc]

theorem buffer_ops_per_conversation_frame_witness :
    (add_pending_message
        ⟨fun c => if c = "c" then [⟨"s1", "user", "hi", 1, 0⟩] else [], fun _ => none⟩
        "c" "s1" "assistant" "hello there" 2 7).pending "d" = [] ∧
    (save_pending_messages
        ⟨fun c => if c = "c" then [⟨"s1", "user", "hi", 1, 0⟩] else [], fun _ => none⟩
        ⟨fun c => if c = "c" then some 10 else none, []⟩
        3 "c" true 5 true true).buf.pending "d" = [] := by
  have h := buffer_ops_per_conversation_frame
    ⟨fun c => if c = "c" then [⟨"s1", "user", "hi", 1, 0⟩] else [], fun _ => none⟩
    "c" "s1" "assistant" "hello there" 2 7
  refine ⟨by simpa using h.2.1 "d" (by decide), ?_⟩
  have h2 := h.2.2.2 ⟨fun c => if c = "c" then some 10 else none, []⟩
    3 true 5 true true "d" (by decide)
  simpa using h2.1

/-- C2 counterexample: a flush is not all-or-nothing with respect to the
persisted state — when the batch insert succeeds and the token-total
update fails, the flush raises (result `none`) yet the message rows are
already persisted, so the persisted state has changed although a store
call failed. -/
theorem flush_update_failure_changes_persisted_state :
    (save_pending_messages
        ⟨fun c => if c = "c" then [⟨"s1", "user", "hi", 1, 0⟩] else [], fun _ => none⟩
        ⟨fun c => if c = "c" then some 10 else none, []⟩
        3 "c" true 0 true false).result = none ∧
    (save_pending_messages
        ⟨fun c => if c = "c" then [⟨"s1", "user", "hi", 1, 0⟩] else [], fun _ => none⟩
        ⟨fun c => if c = "c" then some 10 else none, []⟩
        3 "c" true 0 true false).store.messages =
      [("c", ⟨"s1", "user", "hi", 1, 0⟩)] ∧
    ([("c", (⟨"s1", "user", "hi", 1, 0⟩ : PendingMsg))] : List (String × PendingMsg)) ≠ [] := by
  exact ⟨by decide, by decide, by decide⟩

/-- C2 (amended): a failed flush leaves the in-memory pending queue and
last-save timestamp unmodified, and a retried forced flush still sees and
persists the original buffered turns; when the message insert itself fails
the persisted state is also unchanged, but when the insert succeeds and
the token-total update fails, the inserted message rows remain persisted
(only the token totals are unchanged); a successful non-trivial flush
persists the whole buffer and clears it. -/
theorem flush_failure_preserves_buffer_and_retry (buf : BufferState)
    (store : StoreState) (i : Nat) (cid : String) (force : Bool) (now : Nat)
    (a b : Bool) :
    ((save_pending_messages buf store i cid force now a b).result = none →
      (save_pending_messages buf store i cid force now a b).buf = buf) ∧
    (a = false → (save_pending_messages buf store i cid force now a b).result = none →
      (save_pending_messages buf store i cid force now a b).store = store) ∧
    (a = true → (save_pending_messages buf store i cid force now a b).result = none →
      (save_pending_messages buf store i cid force now a b).store.messages =
        store.messages ++ (buf.pending cid).map (fun m => (cid, m)) ∧
      (∀ c, (save_pending_messages buf store i cid force now a b).store.chats c =
        store.chats c)) ∧
    ((save_pending_messages buf store i cid force now a b).result = none →
      ∀ now2 : Nat,
        (save_pending_messages
            (save_pending_messages buf store i cid force now a b).buf
            (save_pending_messages buf store i cid force now a b).store
            i cid true now2 true true).ops =
          [.insertMessages cid (buf.pending cid),
           .bumpTotal cid ((buf.pending cid).map (fun m => m.tokens)).sum] ∧
        (save_pending_messages
            (save_pending_messages buf store i cid force now a b).buf
            (save_pending_messages buf store i cid force now a b).store
            i cid true now2 true true).result = some (buf.pending cid).length ∧
        (save_pending_messages
            (save_pending_messages buf store i cid force now a b).buf
            (save_pending_messages buf store i cid force now a b).store
            i cid true now2 true true).buf.pending cid = []) ∧
    (∀ n, (save_pending_messages buf store i cid force now a b).result = some n →
      0 < n →
      (save_pending_messages buf store i cid force now a b).buf.pending cid = [] ∧
      (save_pending_messages buf store i cid force now a b).ops =
        [.insertMessages cid (buf.pending cid),
         .bumpTotal cid ((buf.pending cid).map (fun m => m.tokens)).sum]) := by
  rcases save_cases buf store i cid force now a b with
    ⟨he, heq⟩ | ⟨hne, hf, hs, heq⟩ | ⟨hne, hgo, ha, heq⟩ |
    ⟨hne, hgo, ha, hb, heq⟩ | ⟨hne, hgo, ha, hb, heq⟩
  · simp [heq]
  · simp [heq]
  · have hbuf : (save_pending_messages buf store i cid force now a b).buf = buf := by
      rw [heq]
    have hsto : (save_pending_messages buf store i cid force now a b).store = store := by
      rw [heq]
    refine ⟨fun _ => hbuf, fun _ _ => hsto, ?_, ?_, ?_⟩
    · intro hA
      rw [ha] at hA
      simp at hA
    · intro _ now2
      rw [hbuf, hsto, save_eq_commit buf store i cid true now2 hne (Or.inl rfl)]
      exact ⟨rfl, rfl, by simp⟩
    · intro n hn
      rw [heq] at hn
      simp at hn
  · have hbuf : (save_pending_messages buf store i cid force now a b).buf = buf := by
      rw [heq]
    have hsto : (save_pending_messages buf store i cid force now a b).store =
        applyOp store (.insertMessages cid (buf.pending cid)) := by
      rw [heq]
    refine ⟨fun _ => hbuf, ?_, ?_, ?_, ?_⟩
    · intro hA
      rw [ha] at hA
      simp at hA
    · intro _ _
      rw [hsto]
      exact ⟨rfl, fun c => rfl⟩
    · intro _ now2
      rw [hbuf, hsto, save_eq_commit buf (applyOp store (.insertMessages cid (buf.pending cid)))
        i cid true now2 hne (Or.inl rfl)]
      exact ⟨rfl, rfl, by simp⟩
    · intro n hn
      rw [heq] at hn
      simp at hn
  · refine ⟨?_, ?_, ?_, ?_, ?_⟩
    · intro h
      rw [heq] at h
      simp at h
    · intro _ h
      rw [heq] at h
      simp at h
    · intro _ h
      rw [heq] at h
      simp at h
    · intro h
      rw [heq] at h
      simp at h
    · intro n _ _
      rw [heq]
      exact ⟨by simp, rfl⟩

theorem flush_failure_preserves_buffer_and_retry_witness :
    (save_pending_messages
        (save_pending_messages
          ⟨fun c => if c = "c" then [⟨"s1", "user", "hi", 1, 0⟩] else [], fun _ => none⟩
          ⟨fun c => if c = "c" then some 10 else none, []⟩
          3 "c" true 0 true false).buf
        (save_pending_messages
          ⟨fun c => if c = "c" then [⟨"s1", "user", "hi", 1, 0⟩] else [], fun _ => none⟩
          ⟨fun c => if c = "c" then some 10 else none, []⟩
          3 "c" true 0 true false).store
        3 "c" true 5 true true).result = some 1 := by
  have h := flush_failure_preserves_buffer_and_retry
    ⟨fun c => if c = "c" then [⟨"s1", "user", "hi", 1, 0⟩] else [], fun _ => none⟩
    ⟨fun c => if c = "c" then some 10 else none, []⟩
    3 "c" true 0 true false
  have h4 := h.2.2.2.1 (by decide) 5
  simpa using h4.2.1

/-- In a list sorted by non-increasing `updated_at`, the first match of a
predicate has maximal `updated_at` among all matches. -/
theorem find?_max_updated_at (p : RecentChat → Bool) :
    ∀ l : List RecentChat,
      l.Pairwise (fun x y => y.updated_at ≤ x.updated_at) →
      ∀ c, l.find? p = some c →
        ∀ c' ∈ l, p c' = true → c'.updated_at ≤ c.updated_at := by
  intro l
  induction l with
  | nil =>
      intro _ c hf
      simp at hf
  | cons x xs ih =>
      intro hp c hf c' hc' hpc'
      rcases List.pairwise_cons.mp hp with ⟨hb, hp'⟩
      by_cases hx : p x = true
      · rw [List.find?_cons_of_pos _ hx] at hf
        cases hf
        rcases List.mem_cons.mp hc' with h | h
        · rw [h]
        · exact hb c' h
      · rw [List.find?_cons_of_neg _ (by simpa using hx)] at hf
        rcases List.mem_cons.mp hc' with h | h
        · rw [h] at hpc'
          exact absurd hpc' hx
        · exact ih hp' c hf c' h hpc'

/-- C5: conversation resolution reuses the first row of the
recent-active-conversations query result whose topic equals the hint and
whose token total is strictly under budget — which, when the query result
is sorted by descending `updated_at`, is the most recently updated match —
returning its id, `is_new = false` and its token total; when there is no
hint or no such row it creates a new conversation with the fresh id, the
given topic or null, zero tokens and `active = true`, returning
`is_new = true`. -/
theorem router_reuse_or_create (max_tokens_per_chat : Nat) (user_id : String)
    (existing : List RecentChat) (topic : Option String) (freshId : String) :
    (∀ c, reuseCandidate max_tokens_per_chat topic existing = some c →
      c ∈ existing ∧ c.topic = topic ∧ c.total_tokens < max_tokens_per_chat ∧
      get_or_create_chat max_tokens_per_chat user_id existing topic freshId =
        ⟨c.chat_id, false, c.total_tokens, none⟩ ∧
      (existing.Pairwise (fun x y => y.updated_at ≤ x.updated_at) →
        ∀ c' ∈ existing, c'.topic = topic → c'.total_tokens < max_tokens_per_chat →
          c'.updated_at ≤ c.updated_at)) ∧
    (reuseCandidate max_tokens_per_chat topic existing = none →
      get_or_create_chat max_tokens_per_chat user_id existing topic freshId =
        ⟨freshId, true, 0, some ⟨freshId, user_id, topic, 0, true⟩⟩) ∧
    (reuseCandidate max_tokens_per_chat topic existing = none ↔
      topic = none ∨ ∀ c ∈ existing,
        ¬(c.topic = topic ∧ c.total_tokens < max_tokens_per_chat)) := by
  cases topic with
  | none =>
      refine ⟨?_, ?_, ?_⟩
      · intro c hc
        simp [reuseCandidate] at hc
      · intro _
        rfl
      · simp [reuseCandidate]
  | some t =>
      have hcand : reuseCandidate max_tokens_per_chat (some t) existing =
          existing.find? (fun c =>
            decide (c.topic = some t) && decide (c.total_tokens < max_tokens_per_chat)) :=
        rfl
      refine ⟨?_, ?_, ?_⟩
      · intro c hc
        have hc' := hcand ▸ hc
        have hp := List.find?_some hc'
        rw [Bool.and_eq_true] at hp
        have htop : c.topic = some t := of_decide_eq_true hp.1
        have htok : c.total_tokens < max_tokens_per_chat := of_decide_eq_true hp.2
        refine ⟨List.mem_of_find?_eq_some hc', htop, htok, ?_, ?_⟩
        · simp only [get_or_create_chat, hc]
        · intro hsort c' hc'mem hc'top hc'tok
          refine find?_max_updated_at _ existing hsort c hc' c' hc'mem ?_
          rw [Bool.and_eq_true]
          exact ⟨decide_eq_true hc'top, decide_eq_true hc'tok⟩
      · intro h
        simp only [get_or_create_chat, h]
      · rw [hcand]
        constructor
        · intro h
          right
          intro c hcmem hmatch
          refine (List.find?_eq_none.mp h) c hcmem ?_
          rw [Bool.and_eq_true]
          exact ⟨decide_eq_true hmatch.1, decide_eq_true hmatch.2⟩
        · intro h
          rcases h with h | h
          · exact absurd h (by simp)
          · refine List.find?_eq_none.mpr ?_
            intro c hcmem hpred
            rw [Bool.and_eq_true] at hpred
            exact h c hcmem ⟨of_decide_eq_true hpred.1, of_decide_eq_true hpred.2⟩

theorem router_reuse_or_create_witness :
    get_or_create_chat 100 "u1" [⟨"cA", some "billing", 50, 9⟩, ⟨"cB", some "billing", 40, 7⟩]
        (some "billing") "fresh" = ⟨"cA", false, 50, none⟩ ∧
    get_or_create_chat 40 "u1" [⟨"cA", some "billing", 50, 9⟩, ⟨"cB", some "billing", 40, 7⟩]
        (some "billing") "fresh2" =
      ⟨"fresh2", true, 0, some ⟨"fresh2", "u1", some "billing", 0, true⟩⟩ := by
  have h1 := (router_reuse_or_create 100 "u1"
    [⟨"cA", some "billing", 50, 9⟩, ⟨"cB", some "billing", 40, 7⟩]
    (some "billing") "fresh").1 ⟨"cA", some "billing", 50, 9⟩ (by decide)
  have h2 := (router_reuse_or_create 40 "u1"
    [⟨"cA", some "billing", 50, 9⟩, ⟨"cB", some "billing", 40, 7⟩]
    (some "billing") "fresh2").2.1 (by decide)
  exact ⟨h1.2.2.2.1, h2⟩

theorem gen_fail_eq (st : AgentState) (buf : BufferState) (now : Nat) :
    generate_response st buf .failure now =
      ⟨{ st with messages := st.messages ++ [⟨Role.assistant, apologyText⟩] }, buf,
       if st.messages.length = 1 then ⟨Role.system, systemPreamble⟩ :: st.messages
       else st.messages⟩ := rfl

theorem should_continue_append_apology (st : AgentState) (ms : List ChatMsg)
    (h : st.messages = ms ++ [⟨Role.assistant, apologyText⟩]) :
    should_continue st = "continue" := by
  have hlast : st.messages.getLast? = some ⟨Role.assistant, apologyText⟩ := by
    rw [h]
    simp
  simp only [should_continue, hlast]
  decide

/-- C7 counterexample: on a Completion Provider failure the pipeline does
append the fixed apology turn, but it buffers nothing — neither the user
turn nor the apology turn is appended to the Session Buffer, so the
conversation's pending queue stays empty. -/
theorem provider_failure_buffers_nothing :
    (run_turn ⟨[⟨Role.user, "hi"⟩], "c1", "s1", "u1", 0⟩
        ⟨fun _ => [], fun _ => none⟩ ⟨fun _ => none, []⟩
        100 3 0 .failure true true).buf.pending "c1" = [] ∧
    (run_turn ⟨[⟨Role.user, "hi"⟩], "c1", "s1", "u1", 0⟩
        ⟨fun _ => [], fun _ => none⟩ ⟨fun _ => none, []⟩
        100 3 0 .failure true true).state.messages =
      [⟨Role.user, "hi"⟩, ⟨Role.assistant, apologyText⟩] := by
  exact ⟨by decide, by decide⟩

/-- C7 (amended): on every Completion Provider failure or timeout the
pipeline substitutes the fixed apology turn for the reply (the pipeline
itself invokes the provider exactly once and does not re-invoke it), still
proceeds to the auto-flush stage against the unchanged buffer, and the run
completes with the verdict "continue"; however the failed turn pair — the
user turn and the apology turn — is not appended to the Session Buffer. -/
theorem provider_failure_absorbed_without_buffering (st : AgentState)
    (buf : BufferState) (store : StoreState) (maxT i now : Nat) (a b : Bool) :
    (run_turn st buf store maxT i now .failure a b).state.messages =
      (process_input store maxT st).messages ++ [⟨Role.assistant, apologyText⟩] ∧
    (run_turn st buf store maxT i now .failure a b).transcriptSent.isSome = true ∧
    (run_turn st buf store maxT i now .failure a b).verdict = "continue" ∧
    (st.chat_id ≠ "" →
      (run_turn st buf store maxT i now .failure a b).buf =
        (save_pending_messages buf store i st.chat_id false now a b).buf ∧
      (run_turn st buf store maxT i now .failure a b).store =
        (save_pending_messages buf store i st.chat_id false now a b).store ∧
      (run_turn st buf store maxT i now .failure a b).flushResult =
        (save_pending_messages buf store i st.chat_id false now a b).result) := by
  refine ⟨rfl, rfl, should_continue_append_apology _ _ rfl, ?_⟩
  intro hcid
  simp only [run_turn, gen_fail_eq, process_input_chat_id, if_pos hcid]
  exact ⟨trivial, trivial, trivial⟩

theorem provider_failure_absorbed_without_buffering_witness :
    (run_turn ⟨[⟨Role.user, "hi"⟩], "c1", "s1", "u1", 0⟩
        ⟨fun _ => [], fun _ => none⟩ ⟨fun _ => none, []⟩
        100 3 0 .failure true true).verdict = "continue" ∧
    (run_turn ⟨[⟨Role.user, "hi"⟩], "c1", "s1", "u1", 0⟩
        ⟨fun _ => [], fun _ => none⟩ ⟨fun _ => none, []⟩
        100 3 0 .failure true true).flushResult = some 0 := by
  have h := provider_failure_absorbed_without_buffering
    ⟨[⟨Role.user, "hi"⟩], "c1", "s1", "u1", 0⟩
    ⟨fun _ => [], fun _ => none⟩ ⟨fun _ => none, []⟩
    100 3 0 true true
  refine ⟨h.2.2.1, ?_⟩
  rw [(h.2.2.2 (by decide)).2.2]
  decide

end HelpdeskChatbot
